import Mathlib

set_option maxHeartbeats 1000000

/-! Shallow embedding of the nami-automation Shopify webhook (api/webhook.js and its TEST_MODE variant): the tag codec, the orders/paid classifier, the fulfillments/create merge orchestrator and the HTTP handler skeleton, together with proofs about them. -/

/-- JS strings are modelled as lists of characters. -/
abbrev Str := List Char

def isWS (c : Char) : Bool := c = ' ' || c = '\t' || c = '\n' || c = '\r'

/-- Model of `s.trim()`. -/
def trim (s : Str) : Str := (((s.dropWhile isWS).reverse).dropWhile isWS).reverse

/-- Model of `s.split(",")`. -/
def splitComma : Str → List Str
  | [] => [[]]
  | c :: rest =>
    if c = ',' then [] :: splitComma rest
    else
      match splitComma rest with
      | [] => [[c]]
      | p :: ps => (c :: p) :: ps

/-- Model of `Set.prototype.add` on an insertion-ordered set: append the
element iff it is not already present. -/
def insertTag (acc : List Str) (x : Str) : List Str :=
  if x ∈ acc then acc else acc ++ [x]

/-- From webhook.js: `parseTags(tagsStr)` is
`new Set((tagsStr || "").split(",").map(t => t.trim()).filter(Boolean))`;
`new Set(arr)` is the left fold of `add` over the array. -/
def parseTags (s : Str) : List Str :=
  (((splitComma s).map trim).filter (fun t => t ≠ [])).foldl insertTag []

/-- Model of `arr.join(", ")`. -/
def joinCS : List Str → Str
  | [] => []
  | [x] => x
  | x :: y :: ys => x ++ ',' :: ' ' :: joinCS (y :: ys)

/-- From webhook.js: `tagsToString(set)` = `Array.from(set).join(", ")`. -/
def tagsToString (l : List Str) : Str := joinCS l

/-- From webhook.js: `addTags(tagsStr, tags)` parses, `add`s every tag,
then serialises. -/
def addTags (s : Str) (ts : List Str) : Str :=
  tagsToString (ts.foldl insertTag (parseTags s))

/-- From webhook.js: `removeTags(tagsStr, tags)` parses, `delete`s every
tag, then serialises. -/
def removeTags (s : Str) (ts : List Str) : Str :=
  tagsToString ((parseTags s).filter (fun x => x ∉ ts))

/-- From webhook.js: `hasTag(tagsStr, tag)` = `parseTags(tagsStr).has(tag)`. -/
def hasTag (s : Str) (t : Str) : Bool := t ∈ parseTags s

-- Shipping method labels and tag constants from webhook.js.

def SHIPPING_ACCUMULA : Str := "Accumula da Nami!".toList

def SHIPPING_SDA : Str := "SDA Express 24/48h".toList

def TAG_GIACENZA : Str := "GIACENZA".toList

def TAG_SPEDISCI_ORA : Str := "SPEDISCI_ORA".toList

def TAG_MERGE_IN_CORSO : Str := "MERGE_IN_CORSO".toList

def TAG_MERGE_OK : Str := "MERGE_OK".toList

def TAG_MERGE_DONE_FROM : Str := "MERGE_SDA_DONE".toList

/-- A well-formed tag as the codec itself produces: nonempty, comma-free
and trimmed. -/
def CleanTag (w : Str) : Prop := w ≠ [] ∧ ',' ∉ w ∧ trim w = w

instance (w : Str) : Decidable (CleanTag w) := by unfold CleanTag; infer_instance

/-- The two mutual-exclusion invariants on an order's tag set (spec
section 3): MERGE_OK/MERGE_IN_CORSO never both present, and
GIACENZA/MERGE_OK never both present. -/
def invariantOk (t : Str) : Prop :=
  ¬(hasTag t TAG_MERGE_OK = true ∧ hasTag t TAG_MERGE_IN_CORSO = true) ∧
  ¬(hasTag t TAG_GIACENZA = true ∧ hasTag t TAG_MERGE_OK = true)

instance (t : Str) : Decidable (invariantOk t) := by unfold invariantOk; infer_instance

/-- webhook.js line 235: the tag string written on the accumulate path. -/
def accumulaWrite (t : Str) : Str := addTags t [TAG_GIACENZA]

/-- webhook.js line 258: the tag string written on the express (SDA) path. -/
def sdaWrite (t : Str) : Str := addTags t [TAG_SPEDISCI_ORA, TAG_MERGE_IN_CORSO]

/-- webhook.js line 401: the tag string written on each merged GIACENZA order. -/
def mergeOrderWrite (t : Str) : Str :=
  addTags (removeTags t [TAG_GIACENZA]) [TAG_MERGE_OK]

/-- webhook.js lines 336 and 409: the closing tag string written on the
trigger order. -/
def mergeTriggerWrite (t : Str) : Str :=
  removeTags (addTags t [TAG_MERGE_OK, TAG_MERGE_DONE_FROM]) [TAG_MERGE_IN_CORSO]

/-- part_000 line 407: the closing trigger write of the TEST_MODE variant
(no historical MERGE_SDA_DONE tag). -/
def mergeTriggerWriteT (t : Str) : Str :=
  removeTags (addTags t [TAG_MERGE_OK]) [TAG_MERGE_IN_CORSO]

/-! ### JS value helpers -/

/-- JS `a || b` on optional strings: `undefined` and `""` are falsy. -/
def jsOr (a b : Option Str) : Option Str :=
  match a with
  | some s => if s = [] then b else some s
  | none => b

/-- JS truthiness of an optional string value. -/
def truthy (a : Option Str) : Bool :=
  match a with
  | some s => s ≠ []
  | none => false

/-- JS `a || d` where the fallback `d` is a plain string. -/
def orStr (a : Option Str) (d : Str) : Str :=
  match a with
  | some s => if s = [] then d else s
  | none => d

/-- Decimal rendering of a number interpolated into a template string. -/
def natToStr (n : Nat) : Str := Nat.toDigits 10 n

/-! ### Data model (attributes consumed from the Shopify payloads/reads) -/

/-- A GraphQL `fulfillmentOrders` node: `{ id status }`. -/
structure FoNode where
  id : Str
  status : Str
deriving DecidableEq

/-- The orders/paid GraphQL read of the live order (tags come back as an
array of strings in GraphQL). -/
structure LiveOrder where
  tags : List Str
  foNodes : List FoNode
deriving DecidableEq

/-- One `shipping_lines` entry; only `title` is consumed. -/
structure ShippingLine where
  title : Option Str
deriving DecidableEq

/-- orders/paid webhook payload fields the handler consumes. -/
structure PaidPayload where
  id : Option Nat
  shipping_lines : List ShippingLine
deriving DecidableEq

/-- Gateway responses consumed by the orders/paid handler: the single
GraphQL read of the live order. -/
structure PaidEnv where
  liveOrder : Option LiveOrder
deriving DecidableEq

/-- The REST fetch of the trigger order
(`fields=id,name,customer,tags,fulfillment_status,shipping_lines`). -/
structure TriggerOrder where
  name : Option Str
  customerId : Option Nat
  tags : Option Str
  shipping_lines : List ShippingLine
deriving DecidableEq

/-- One order summary from the customer-scoped listing
(`fields=id,name,tags,fulfillment_status`). -/
structure OrderSummary where
  id : Nat
  name : Option Str
  tags : Option Str
  fulfillment_status : Option Str
deriving DecidableEq

/-- One REST `fulfillment_orders` entry: numeric id and status. -/
structure FoRest where
  id : Nat
  status : Str
deriving DecidableEq

/-- Gateway responses consumed by the fulfillments/create handler. -/
structure MergeEnv where
  triggerOrder : Option TriggerOrder
  customerOrders : List OrderSummary
  foGidsOf : Nat → List FoNode
  fosOf : Nat → List FoRest

/-- fulfillments/create webhook payload fields the handler consumes. -/
structure FulfillPayload where
  id : Option Nat
  order_id : Option Nat
  tracking_number : Option Str
  tracking_numbers : List Str
  tracking_company : Option Str
  tracking_company_name : Option Str
  tracking_url : Option Str
  tracking_urls : List Str
deriving DecidableEq

/-- An external write issued through the Shopify gateway. -/
inductive Effect where
  | updateTags (orderId : Nat) (tags : Str)
  | holdFO (gid : Str)
  | releaseHold (gid : Str)
  | createFulfillment (foId : Nat) (number : Str) (company : Str)
      (url : Option Str) (message : Str)
deriving DecidableEq

/-- JS truthiness of an optional numeric id (`0` is falsy). -/
def truthyNat (a : Option Nat) : Bool :=
  match a with
  | some n => n ≠ 0
  | none => false

/-! ### webhook.js handlers -/

/-- `(live?.tags || [])` from the orders/paid GraphQL read. -/
def liveTags (env : PaidEnv) : List Str :=
  match env.liveOrder with
  | some l => l.tags
  | none => []

/-- `(live?.fulfillmentOrders?.nodes || [])` from the orders/paid
GraphQL read. -/
def liveFoNodes (env : PaidEnv) : List FoNode :=
  match env.liveOrder with
  | some l => l.foNodes
  | none => []

/-- `payload?.shipping_lines?.[0]?.title || ""`. -/
def paidShippingTitle (p : PaidPayload) : Str :=
  orStr ((p.shipping_lines.head?).bind (·.title)) []

/-- webhook.js `handleOrdersPaid`: the outcome string and the sequence of
external writes, as a function of the payload and the gateway read. -/
def handleOrdersPaid (env : PaidEnv) (p : PaidPayload) : Str × List Effect :=
  match p.id with
  | none => ("OK (no order id)".toList, [])
  | some orderId =>
    if orderId = 0 then ("OK (no order id)".toList, [])
    else
      let shippingTitle := paidShippingTitle p
      let currentTagsArr := (liveTags env).map trim
      let currentTagsStr := joinCS currentTagsArr
      if shippingTitle = SHIPPING_ACCUMULA then
        let foGids := (liveFoNodes env).map (fun n => n.id)
        ("OK GIACENZA".toList,
          Effect.updateTags orderId (accumulaWrite currentTagsStr) ::
            foGids.map Effect.holdFO)
      else if shippingTitle = SHIPPING_SDA then
        if TAG_MERGE_OK ∈ currentTagsArr ∨ TAG_MERGE_IN_CORSO ∈ currentTagsArr then
          ("SKIP already handled".toList, [])
        else
          ("OK SDA tagged".toList,
            [Effect.updateTags orderId (sdaWrite currentTagsStr)])
      else
        ("OK ignored shipping method".toList, [])

/-- webhook.js lines 327-332: the customer's orders tagged GIACENZA whose
fulfillment status is null or "unfulfilled" (the mergeable set). -/
def giacenzeOf (orders : List OrderSummary) : List OrderSummary :=
  orders.filter fun o =>
    hasTag (orStr o.tags []) TAG_GIACENZA &&
      decide (o.fulfillment_status = none ∨
        o.fulfillment_status = some "unfulfilled".toList)

/-- `triggerOrder?.tags || ""`. -/
def triggerTagsOf (env : MergeEnv) : Str :=
  orStr (env.triggerOrder.bind (·.tags)) []

/-- `triggerOrder?.shipping_lines?.[0]?.title || ""`. -/
def triggerShippingTitleOf (env : MergeEnv) : Str :=
  orStr ((env.triggerOrder.bind (fun t => t.shipping_lines.head?)).bind (·.title)) []

/-- `payload?.tracking_number || payload?.tracking_numbers?.[0]`. -/
def trackingNumberOf (p : FulfillPayload) : Option Str :=
  jsOr p.tracking_number p.tracking_numbers.head?

/-- The non-closed, non-cancelled REST fulfillment orders (the `continue`
filter of the creation loop). -/
def openFos (fos : List FoRest) : List FoRest :=
  fos.filter fun fo =>
    decide (¬(fo.status = "closed".toList ∨ fo.status = "cancelled".toList))

/-- The fulfillment created for one open unit of a merged order, carrying
the trigger's tracking data (webhook.js lines 381-397). -/
def mergeCreate (env : MergeEnv) (p : FulfillPayload) (orderId : Nat)
    (fo : FoRest) : Effect :=
  Effect.createFulfillment fo.id
    (orStr (trackingNumberOf p) [])
    (orStr (jsOr (jsOr p.tracking_company p.tracking_company_name)
      (some "SDA".toList)) "SDA".toList)
    (if truthy (jsOr p.tracking_url p.tracking_urls.head?) then
      jsOr p.tracking_url p.tracking_urls.head? else none)
    ("Accorpato a spedizione ".toList ++
      orStr (env.triggerOrder.bind (·.name)) (natToStr orderId))

/-- The per-mergeable-order work of webhook.js lines 352-406: release the
hold on every unit gid returned by the GraphQL read, create a fulfillment
for every non-closed/non-cancelled REST unit, then retag the order. -/
def mergeChunk (env : MergeEnv) (p : FulfillPayload) (orderId : Nat)
    (o : OrderSummary) : List Effect :=
  ((env.foGidsOf o.id).map (fun n => n.id)).map Effect.releaseHold ++
    (openFos (env.fosOf o.id)).map (mergeCreate env p orderId) ++
    [Effect.updateTags o.id (mergeOrderWrite (orStr o.tags []))]

/-- webhook.js lines 334-416: the merge work once all preconditions have
passed — close immediately when the mergeable set is empty, otherwise
process every mergeable order and then close the trigger. -/
def mergePhase (env : MergeEnv) (p : FulfillPayload) (orderId : Nat) :
    Str × List Effect :=
  if (giacenzeOf env.customerOrders).isEmpty then
    ("OK no giacenze".toList,
      [Effect.updateTags orderId (mergeTriggerWrite (triggerTagsOf env))])
  else
    ("OK merged".toList,
      (giacenzeOf env.customerOrders).flatMap (mergeChunk env p orderId) ++
        [Effect.updateTags orderId (mergeTriggerWrite (triggerTagsOf env))])

/-- webhook.js `handleFulfillmentCreate`: the outcome string and the
sequence of external writes, as a function of the payload and the gateway
reads. -/
def handleFulfillmentCreate (env : MergeEnv) (p : FulfillPayload) :
    Str × List Effect :=
  match p.order_id with
  | none => ("OK (no order_id)".toList, [])
  | some orderId =>
    if orderId = 0 then ("OK (no order_id)".toList, [])
    else if ¬ truthy (trackingNumberOf p) then ("SKIP no tracking yet".toList, [])
    else if ¬ truthyNat (env.triggerOrder.bind (·.customerId)) then
      ("SKIP no customer".toList, [])
    else if ¬(triggerShippingTitleOf env = SHIPPING_SDA ∨
        hasTag (triggerTagsOf env) TAG_SPEDISCI_ORA = true) then
      ("OK ignored (not SDA)".toList, [])
    else if hasTag (triggerTagsOf env) TAG_MERGE_OK then
      ("SKIP already merged".toList, [])
    else mergePhase env p orderId

/-! ### part_000 (TEST_MODE) variant -/

/-- Whether a gated write was actually performed or skipped. -/
inductive WriteResult where
  | performed
  | skipped
deriving DecidableEq

/-- A write request after it went through the dry-run gate. -/
structure GatedWrite where
  op : Effect
  result : WriteResult
deriving DecidableEq

/-- part_000 lines 92-98 and 128-134 (`shopifyRestWrite`,
`shopifyGraphqlMutation`): the single dry-run gate every write goes
through; in TEST_MODE the write is skipped and reports a skipped marker,
otherwise it is performed. -/
def gate (testMode : Bool) (op : Effect) : GatedWrite :=
  ⟨op, if testMode then .skipped else .performed⟩

namespace TestMode

/-- part_000 `handleOrdersPaid`, parameterised by TEST_MODE; every write
is routed through the gate. -/
def handleOrdersPaid (tm : Bool) (env : PaidEnv) (p : PaidPayload) :
    Str × List GatedWrite :=
  match p.id with
  | none => ("OK (no order id)".toList, [])
  | some orderId =>
    if orderId = 0 then ("OK (no order id)".toList, [])
    else
      let shippingTitle := paidShippingTitle p
      let currentTagsArr := (liveTags env).map trim
      let currentTagsStr := joinCS currentTagsArr
      if shippingTitle = SHIPPING_ACCUMULA then
        let foGids := (liveFoNodes env).map (fun n => n.id)
        ("OK GIACENZA (test ok)".toList,
          gate tm (Effect.updateTags orderId (accumulaWrite currentTagsStr)) ::
            foGids.map (fun g => gate tm (Effect.holdFO g)))
      else if shippingTitle = SHIPPING_SDA then
        if TAG_MERGE_OK ∈ currentTagsArr ∨ TAG_MERGE_IN_CORSO ∈ currentTagsArr then
          ("SKIP already handled".toList, [])
        else
          ("OK SDA tagged (test ok)".toList,
            [gate tm (Effect.updateTags orderId (sdaWrite currentTagsStr))])
      else
        ("OK ignored shipping method".toList, [])

/-- part_000 `handleFulfillmentCreate`, parameterised by TEST_MODE. In
this variant the SDA check precedes the customer check, the trigger-close
write adds only MERGE_OK, and the tracking company falls back from
`tracking_company` alone. -/
def handleFulfillmentCreate (tm : Bool) (env : MergeEnv) (p : FulfillPayload) :
    Str × List GatedWrite :=
  match p.order_id with
  | none => ("OK (no order_id)".toList, [])
  | some orderId =>
    if orderId = 0 then ("OK (no order_id)".toList, [])
    else
      let trackingNumber := trackingNumberOf p
      let trackingCompany := jsOr p.tracking_company (some "SDA".toList)
      let trackingUrl := jsOr p.tracking_url p.tracking_urls.head?
      if ¬ truthy trackingNumber then ("SKIP no tracking yet".toList, [])
      else
        let orderName := orStr (env.triggerOrder.bind (·.name)) (natToStr orderId)
        let triggerTags := triggerTagsOf env
        if ¬(triggerShippingTitleOf env = SHIPPING_SDA ∨
            hasTag triggerTags TAG_SPEDISCI_ORA = true) then
          ("OK ignored (not SDA)".toList, [])
        else if ¬ truthyNat (env.triggerOrder.bind (·.customerId)) then
          ("SKIP no customer".toList, [])
        else if hasTag triggerTags TAG_MERGE_OK then
          ("SKIP already merged".toList, [])
        else
          let giacenze := giacenzeOf env.customerOrders
          let perOrder := giacenze.flatMap fun o =>
            let foGids := (env.foGidsOf o.id).map (fun n => n.id)
            foGids.map (fun g => gate tm (Effect.releaseHold g)) ++
              ((openFos (env.fosOf o.id)).map fun fo =>
                gate tm (Effect.createFulfillment fo.id
                  (orStr trackingNumber [])
                  (orStr trackingCompany [])
                  (if truthy trackingUrl then trackingUrl else none)
                  ("Accorpato a spedizione ".toList ++ orderName))) ++
              [gate tm (Effect.updateTags o.id (mergeOrderWrite (orStr o.tags [])))]
          ("OK merge simulated (test ok)".toList,
            perOrder ++
              [gate tm (Effect.updateTags orderId (mergeTriggerWriteT triggerTags))])

end TestMode

/-! ### HTTP handler skeleton (webhook.js main handler) -/

/-- An inbound HTTP request as the handler sees it. -/
structure Request where
  method : Str
  rawBody : Str
  hmacHeader : Option Str
  topic : Option Str

/-- Configuration and collaborators of the main handler: the webhook
secret, the HMAC-SHA256-base64 function over (secret, raw body),
JSON-parse success, and the per-topic processing, which may throw
(modelling gateway failures caught by the top-level try/catch). -/
structure HandlerEnv where
  secret : Option Str
  hmacOf : Str → Str → Str
  parseOk : Str → Bool
  dispatch : Option Str → Str → Except Unit Str

/-- webhook.js main `handler`: the HTTP status code and response body.
`verifyHmac` compares the computed digest with the header after a length
check via `timingSafeEqual`, i.e. string equality; a missing webhook
secret makes `verifyHmac` throw, which the top-level try/catch converts
into a 200 "ERROR handled". -/
def webhookHandler (env : HandlerEnv) (req : Request) : Nat × Option Str :=
  if req.method ≠ "POST".toList then (405, none)
  else
    match req.hmacHeader with
    | none => (401, some "Missing HMAC header".toList)
    | some h =>
      match env.secret with
      | none => (200, some "ERROR handled".toList)
      | some secret =>
        if h ≠ env.hmacOf secret req.rawBody then
          (401, some "HMAC validation failed".toList)
        else if ¬ env.parseOk req.rawBody then (400, some "Invalid JSON".toList)
        else
          match env.dispatch req.topic req.rawBody with
          | .ok out => (200, some out)
          | .error _ => (200, some "ERROR handled".toList)

/-- The poller's fixed wait schedule as the spec states it
(immediate, 2s, 5s, 10s, 20s). -/
def waitScheduleMs : List Nat := [0, 2000, 5000, 10000, 20000]

/-- Helper for the spec-side poller: try `fuel` attempts starting at
`attempt`, returning the first non-empty read. -/
def pollAux (reads : Nat → List Str) : Nat → Nat → List Str
  | _, 0 => []
  | attempt, fuel + 1 =>
    let r := reads attempt
    if r = [] then pollAux reads (attempt + 1) fuel else r

/-- Modelled from the spec: `pollUntilNonEmpty(readFn, scheduleMs)` — the
Eventual-Consistency Poller, of which no implementation exists in the
source. `reads i` is what the gateway would return on the i-th attempt;
the poller retries across the wait schedule and returns the first
non-empty result, or an empty result once the schedule is exhausted. -/
def pollUntilNonEmpty (reads : Nat → List Str) : List Str :=
  pollAux reads 0 waitScheduleMs.length

/-- The response contract exactly as the claim states it: 405 for
non-POST, 401 for a missing or mismatched HMAC header, 400 for malformed
JSON, 200 for everything else. -/
def claimedStatus (env : HandlerEnv) (secret : Str) (req : Request) : Nat :=
  if req.method ≠ "POST".toList then 405
  else
    match req.hmacHeader with
    | none => 401
    | some h =>
      if h ≠ env.hmacOf secret req.rawBody then 401
      else if ¬ env.parseOk req.rawBody then 400
      else 200

/-- The five merge preconditions in the order the claim states them
(1 order id, 2 tracking, 3 shipping/EXPRESS_NOW, 4 customer id,
5 MERGE_OK), each with its distinct outcome; `none` when all pass. -/
def claimedPrecheckOutcome (env : MergeEnv) (p : FulfillPayload) : Option Str :=
  match p.order_id with
  | none => some "OK (no order_id)".toList
  | some orderId =>
    if orderId = 0 then some "OK (no order_id)".toList
    else if ¬ truthy (trackingNumberOf p) then some "SKIP no tracking yet".toList
    else if ¬(triggerShippingTitleOf env = SHIPPING_SDA ∨
        hasTag (triggerTagsOf env) TAG_SPEDISCI_ORA = true) then
      some "OK ignored (not SDA)".toList
    else if ¬ truthyNat (env.triggerOrder.bind (·.customerId)) then
      some "SKIP no customer".toList
    else if hasTag (triggerTagsOf env) TAG_MERGE_OK then
      some "SKIP already merged".toList
    else none

/-- The precondition cascade in the order webhook.js actually evaluates
it: the missing-customer check (4) runs before the shipping/EXPRESS_NOW
check (3); `none` when all pass. -/
def amendedPrecheckOutcome (env : MergeEnv) (p : FulfillPayload) : Option Str :=
  match p.order_id with
  | none => some "OK (no order_id)".toList
  | some orderId =>
    if orderId = 0 then some "OK (no order_id)".toList
    else if ¬ truthy (trackingNumberOf p) then some "SKIP no tracking yet".toList
    else if ¬ truthyNat (env.triggerOrder.bind (·.customerId)) then
      some "SKIP no customer".toList
    else if ¬(triggerShippingTitleOf env = SHIPPING_SDA ∨
        hasTag (triggerTagsOf env) TAG_SPEDISCI_ORA = true) then
      some "OK ignored (not SDA)".toList
    else if hasTag (triggerTagsOf env) TAG_MERGE_OK then
      some "SKIP already merged".toList
    else none

/-- A read sequence whose first read is empty but whose second read would
see one fulfillment unit. -/
def lateReads : Nat → List Str := fun i => if i = 0 then [] else ["gid1".toList]

/-- The gids of the release-hold calls in a write trace, in order. -/
def releaseTargets (tr : List Effect) : List Str :=
  tr.filterMap fun e =>
    match e with
    | Effect.releaseHold g => some g
    | _ => none

/-- The fulfillment-order ids of the fulfillment creations in a write
trace, in order. -/
def createdFoIds (tr : List Effect) : List Nat :=
  tr.filterMap fun e =>
    match e with
    | Effect.createFulfillment foId _ _ _ _ => some foId
    | _ => none

/-! ### Codec lemmas -/

lemma splitComma_cons (c : Char) (rest : Str) :
    splitComma (c :: rest) =
      if c = ',' then [] :: splitComma rest
      else
        match splitComma rest with
        | [] => [[c]]
        | p :: ps => (c :: p) :: ps := rfl

lemma splitComma_ne_nil (s : Str) : splitComma s ≠ [] := by
  cases s with
  | nil => simp [splitComma]
  | cons c rest =>
    rw [splitComma_cons]
    split
    · simp
    · cases h : splitComma rest with
      | nil => simp
      | cons p ps => simp

lemma not_mem_comma_of_mem_splitComma {s p : Str} (hp : p ∈ splitComma s) : ',' ∉ p := by
  induction s generalizing p with
  | nil =>
    simp [splitComma] at hp
    subst hp; simp
  | cons c rest ih =>
    rw [splitComma_cons] at hp
    by_cases hc : c = ','
    · rw [if_pos hc] at hp
      rcases List.mem_cons.mp hp with h | h
      · subst h; simp
      · exact ih h
    · rw [if_neg hc] at hp
      cases h : splitComma rest with
      | nil => exact absurd h (splitComma_ne_nil rest)
      | cons q qs =>
        rw [h] at hp
        rcases List.mem_cons.mp hp with h1 | h1
        · subst h1
          intro hmem
          rcases List.mem_cons.mp hmem with h2 | h2
          · exact hc h2.symm
          · exact ih (h ▸ List.mem_cons_self q qs) h2
        · exact ih (h ▸ List.mem_cons_of_mem q h1)

lemma splitComma_of_no_comma {s : Str} (h : ',' ∉ s) : splitComma s = [s] := by
  induction s with
  | nil => rfl
  | cons c rest ih =>
    have hc : c ≠ ',' := fun hc => h (hc ▸ List.mem_cons_self c rest)
    have hr : ',' ∉ rest := fun hm => h (List.mem_cons_of_mem _ hm)
    rw [splitComma_cons, if_neg hc, ih hr]

lemma splitComma_append_comma {a b : Str} (h : ',' ∉ a) :
    splitComma (a ++ ',' :: b) = a :: splitComma b := by
  induction a with
  | nil => simp [splitComma_cons]
  | cons c a' ih =>
    have hc : c ≠ ',' := fun hc => h (hc ▸ List.mem_cons_self c a')
    have ha : ',' ∉ a' := fun hm => h (List.mem_cons_of_mem _ hm)
    rw [List.cons_append, splitComma_cons, if_neg hc, ih ha]

lemma not_of_dropWhile_cons {p : Char → Bool} {l t : Str} {x : Char}
    (h : l.dropWhile p = x :: t) : p x = false := by
  induction l with
  | nil => simp [List.dropWhile] at h
  | cons c rest ih =>
    rw [List.dropWhile_cons] at h
    split at h
    · exact ih h
    · next hc =>
      cases h
      simpa using hc

lemma dropWhile_idem (p : Char → Bool) (l : Str) :
    (l.dropWhile p).dropWhile p = l.dropWhile p := by
  cases h : l.dropWhile p with
  | nil => rfl
  | cons x t =>
    have hx := not_of_dropWhile_cons h
    simp [List.dropWhile_cons, hx]

lemma mem_of_mem_dropWhile {p : Char → Bool} {l : Str} {c : Char}
    (h : c ∈ l.dropWhile p) : c ∈ l := by
  induction l with
  | nil => simp at h
  | cons x t ih =>
    rw [List.dropWhile_cons] at h
    split at h
    · exact List.mem_cons_of_mem _ (ih h)
    · exact h

lemma mem_of_mem_trim {s : Str} {c : Char} (h : c ∈ trim s) : c ∈ s := by
  unfold trim at h
  rw [List.mem_reverse] at h
  have h1 := mem_of_mem_dropWhile h
  rw [List.mem_reverse] at h1
  exact mem_of_mem_dropWhile h1

lemma trim_ws_cons {c : Char} (hc : isWS c = true) (s : Str) :
    trim (c :: s) = trim s := by
  unfold trim
  simp [List.dropWhile_cons, hc]

lemma trim_trim (s : Str) : trim (trim s) = trim s := by
  unfold trim
  set a := s.dropWhile isWS with ha
  set b := a.reverse.dropWhile isWS with hb
  cases hbr : b.reverse with
  | nil =>
    have hbnil : b = [] := by simpa using congrArg List.reverse hbr
    simp [hbnil]
  | cons x r =>
    have hws : isWS x = false := by
      obtain ⟨t, ht⟩ := List.dropWhile_suffix (l := a.reverse) (p := isWS)
      have haa : a = b.reverse ++ t.reverse := by
        have h2 := congrArg List.reverse ht
        rw [List.reverse_append, List.reverse_reverse] at h2
        rw [← hb] at h2
        exact h2.symm
      rw [hbr] at haa
      exact not_of_dropWhile_cons (l := s) (p := isWS) (by rw [← ha]; exact haa)
    have h1 : List.dropWhile isWS (x :: r) = x :: r := by
      simp [List.dropWhile_cons, hws]
    have h2 : b.dropWhile isWS = b := by rw [hb]; exact dropWhile_idem _ _
    have hb2 : (x :: r).reverse = b := by rw [← hbr, List.reverse_reverse]
    rw [h1, hb2, h2, hbr]

lemma mem_insertTag {acc : List Str} {x y : Str} :
    y ∈ insertTag acc x ↔ y ∈ acc ∨ y = x := by
  by_cases hx : x ∈ acc
  · rw [insertTag, if_pos hx]
    exact ⟨Or.inl, fun h => h.elim id (fun h => h ▸ hx)⟩
  · rw [insertTag, if_neg hx]
    simp

lemma mem_foldl_insertTag {acc ts : List Str} {y : Str} :
    y ∈ ts.foldl insertTag acc ↔ y ∈ acc ∨ y ∈ ts := by
  induction ts generalizing acc with
  | nil => simp
  | cons t ts ih =>
    rw [List.foldl_cons, ih, mem_insertTag]
    simp [or_assoc]

lemma nodup_insertTag {acc : List Str} {x : Str} (h : acc.Nodup) :
    (insertTag acc x).Nodup := by
  by_cases hx : x ∈ acc
  · rwa [insertTag, if_pos hx]
  · rw [insertTag, if_neg hx]
    refine h.append (List.nodup_singleton x) fun a ha hax => ?_
    rw [List.mem_singleton] at hax
    exact hx (hax ▸ ha)

lemma nodup_foldl_insertTag {acc ts : List Str} (h : acc.Nodup) :
    (ts.foldl insertTag acc).Nodup := by
  induction ts generalizing acc with
  | nil => exact h
  | cons t ts ih => exact ih (nodup_insertTag h)

lemma foldl_insertTag_of_nodup {acc ts : List Str} (h : (acc ++ ts).Nodup) :
    ts.foldl insertTag acc = acc ++ ts := by
  induction ts generalizing acc with
  | nil => simp
  | cons t ts ih =>
    have hx : t ∉ acc := fun hmem =>
      List.disjoint_of_nodup_append h hmem (List.mem_cons_self t ts)
    have h' : (acc ++ [t] ++ ts).Nodup := by simpa [List.append_assoc] using h
    rw [List.foldl_cons, insertTag, if_neg hx, ih h']
    simp

lemma foldl_insertTag_of_subset {acc ts : List Str} (h : ∀ t ∈ ts, t ∈ acc) :
    ts.foldl insertTag acc = acc := by
  induction ts generalizing acc with
  | nil => rfl
  | cons t ts ih =>
    rw [List.foldl_cons, insertTag, if_pos (h t (List.mem_cons_self t ts))]
    exact ih fun x hx => h x (List.mem_cons_of_mem _ hx)

lemma parseTags_nodup (s : Str) : (parseTags s).Nodup :=
  nodup_foldl_insertTag List.nodup_nil

lemma cleanTag_of_mem_parseTags {s w : Str} (h : w ∈ parseTags s) : CleanTag w := by
  unfold parseTags at h
  rw [mem_foldl_insertTag] at h
  rcases h with h | h
  · simp at h
  · rw [List.mem_filter] at h
    obtain ⟨h1, h2⟩ := h
    rw [List.mem_map] at h1
    obtain ⟨p, hp, rfl⟩ := h1
    refine ⟨by simpa using h2, ?_, trim_trim p⟩
    exact fun hc => not_mem_comma_of_mem_splitComma hp (mem_of_mem_trim hc)

lemma splitComma_joinCS (x : Str) (xs : List Str)
    (hx : ',' ∉ x) (hxs : ∀ w ∈ xs, ',' ∉ w) :
    splitComma (joinCS (x :: xs)) = x :: xs.map (fun w => ' ' :: w) := by
  induction xs generalizing x with
  | nil => simpa [joinCS] using splitComma_of_no_comma hx
  | cons y ys ih =>
    have hy : ',' ∉ y := hxs y (List.mem_cons_self y ys)
    have hys : ∀ w ∈ ys, ',' ∉ w := fun w hw => hxs w (List.mem_cons_of_mem _ hw)
    show splitComma (x ++ ',' :: ' ' :: joinCS (y :: ys)) = _
    rw [splitComma_append_comma hx, splitComma_cons,
      if_neg (by decide : ¬ (' ' = ',')), ih y hy hys]
    simp

lemma parseTags_tagsToString {l : List Str} (hc : ∀ w ∈ l, CleanTag w)
    (hn : l.Nodup) : parseTags (tagsToString l) = l := by
  cases l with
  | nil => rfl
  | cons x xs =>
    have hcx := hc x (List.mem_cons_self x xs)
    have hsplit := splitComma_joinCS x xs hcx.2.1
      (fun w hw => (hc w (List.mem_cons_of_mem _ hw)).2.1)
    unfold parseTags tagsToString
    rw [hsplit]
    have hmap : (x :: xs.map (fun w => ' ' :: w)).map trim = x :: xs := by
      rw [List.map_cons, hcx.2.2, List.map_map]
      congr 1
      have : ∀ w ∈ xs, (trim ∘ fun w => ' ' :: w) w = id w := by
        intro w hw
        have h1 : trim (' ' :: w) = trim w := trim_ws_cons (by decide) w
        simpa [h1] using (hc w (List.mem_cons_of_mem _ hw)).2.2
      rw [List.map_congr_left this, List.map_id]
    rw [hmap]
    have hfil : (x :: xs).filter (fun t => t ≠ []) = x :: xs := by
      rw [List.filter_eq_self]
      intro a hamem
      simpa using (hc a hamem).1
    rw [hfil]
    have hfold := @foldl_insertTag_of_nodup [] (x :: xs) (by simpa using hn)
    simpa using hfold

lemma parseTags_addTags {s : Str} {ts : List Str} (hts : ∀ w ∈ ts, CleanTag w) :
    parseTags (addTags s ts) = ts.foldl insertTag (parseTags s) := by
  unfold addTags
  apply parseTags_tagsToString
  · intro w hw
    rw [mem_foldl_insertTag] at hw
    exact hw.elim cleanTag_of_mem_parseTags (hts w)
  · exact nodup_foldl_insertTag (parseTags_nodup s)

lemma parseTags_removeTags (s : Str) (ts : List Str) :
    parseTags (removeTags s ts) = (parseTags s).filter (fun x => x ∉ ts) := by
  unfold removeTags
  apply parseTags_tagsToString
  · intro w hw
    exact cleanTag_of_mem_parseTags (List.mem_of_mem_filter hw)
  · exact (parseTags_nodup s).filter _

lemma hasTag_addTags_iff {s t : Str} {ts : List Str} (hts : ∀ w ∈ ts, CleanTag w) :
    hasTag (addTags s ts) t = true ↔ (hasTag s t = true ∨ t ∈ ts) := by
  unfold hasTag
  rw [parseTags_addTags hts]
  simp [mem_foldl_insertTag]

lemma hasTag_removeTags_iff {s t : Str} {ts : List Str} :
    hasTag (removeTags s ts) t = true ↔ (hasTag s t = true ∧ t ∉ ts) := by
  unfold hasTag
  rw [parseTags_removeTags]
  simp [List.mem_filter]

/-! ### Claim-side definitions, written from the spec/claim wording for refinement comparison with the code-side definitions above -/

/-! ### Support lemmas for the claim theorems -/

lemma hasTag_addTags_eq {s t : Str} {ts : List Str} (hts : ∀ w ∈ ts, CleanTag w) :
    hasTag (addTags s ts) t = (hasTag s t || decide (t ∈ ts)) := by
  rw [Bool.eq_iff_iff, hasTag_addTags_iff hts]
  simp

lemma hasTag_removeTags_eq {s t : Str} {ts : List Str} :
    hasTag (removeTags s ts) t = (hasTag s t && !decide (t ∈ ts)) := by
  rw [Bool.eq_iff_iff, hasTag_removeTags_iff]
  simp

lemma invariantOk_of_no_MERGE_OK {x : Str} (h : hasTag x TAG_MERGE_OK = false) :
    invariantOk x := by
  constructor
  · rintro ⟨h1, _⟩
    rw [h] at h1
    exact Bool.false_ne_true h1
  · rintro ⟨_, h2⟩
    rw [h] at h2
    exact Bool.false_ne_true h2

lemma invariantOk_of_flags {x : Str} (h1 : hasTag x TAG_MERGE_IN_CORSO = false)
    (h2 : hasTag x TAG_GIACENZA = false) : invariantOk x := by
  constructor
  · rintro ⟨_, hb⟩
    rw [h1] at hb
    exact Bool.false_ne_true hb
  · rintro ⟨ha, _⟩
    rw [h2] at ha
    exact Bool.false_ne_true ha

/-! ### Claim C1 -/

/-- Claim C1 counterexample: the starting tag set {MERGE_OK} satisfies
both mutual-exclusion invariants, yet the accumulate-path write issued by
handleOrdersPaid for such an order adds GIACENZA to it, producing a tag
set carrying GIACENZA and MERGE_OK together, which violates the
HOLD/MERGE_DONE exclusion. -/
theorem tagInvariant_counterexample :
    invariantOk "MERGE_OK".toList ∧
    handleOrdersPaid ⟨some ⟨["MERGE_OK".toList], []⟩⟩
        ⟨some 1, [⟨some SHIPPING_ACCUMULA⟩]⟩ =
      ("OK GIACENZA".toList, [Effect.updateTags 1 "MERGE_OK, GIACENZA".toList]) ∧
    ¬ invariantOk "MERGE_OK, GIACENZA".toList := by
  refine ⟨by decide, by decide, by decide⟩

/-- Claim C1 (amended): every tag write issued by handleOrdersPaid and
handleFulfillmentCreate preserves the two mutual-exclusion invariants
under a per-write precondition on the starting tag set: the SDA write
under its own idempotency guard (MERGE_OK and MERGE_IN_CORSO absent), the
accumulate write only when MERGE_OK is not already present, the
per-merged-order write only when MERGE_IN_CORSO is not present, and the
trigger-closing write only when GIACENZA is not present. -/
theorem tagInvariant_amended (t : Str) (_hinv : invariantOk t) :
    (hasTag t TAG_MERGE_OK = false → invariantOk (accumulaWrite t)) ∧
    (hasTag t TAG_MERGE_OK = false → hasTag t TAG_MERGE_IN_CORSO = false →
      invariantOk (sdaWrite t)) ∧
    (hasTag t TAG_MERGE_IN_CORSO = false → invariantOk (mergeOrderWrite t)) ∧
    (hasTag t TAG_GIACENZA = false → invariantOk (mergeTriggerWrite t)) := by
  refine ⟨fun hMO => ?_, fun hMO _ => ?_, fun hMIC => ?_, fun hG => ?_⟩
  · refine invariantOk_of_no_MERGE_OK ?_
    rw [accumulaWrite, hasTag_addTags_eq (by decide), hMO]
    decide
  · refine invariantOk_of_no_MERGE_OK ?_
    rw [sdaWrite, hasTag_addTags_eq (by decide), hMO]
    decide
  · refine invariantOk_of_flags ?_ ?_
    · rw [mergeOrderWrite, hasTag_addTags_eq (by decide),
        hasTag_removeTags_eq, hMIC]
      decide
    · rw [mergeOrderWrite, hasTag_addTags_eq (by decide), hasTag_removeTags_eq]
      simp
      decide
  · refine invariantOk_of_flags ?_ ?_
    · rw [mergeTriggerWrite, hasTag_removeTags_eq]
      simp
    · rw [mergeTriggerWrite, hasTag_removeTags_eq,
        hasTag_addTags_eq (by decide), hG]
      decide

/-- Witness for the amended claim C1 at the concrete starting tag set
"SPEDISCI_ORA", which satisfies all the preconditions. -/
theorem tagInvariant_witness :
    invariantOk (accumulaWrite "SPEDISCI_ORA".toList) ∧
    invariantOk (sdaWrite "SPEDISCI_ORA".toList) ∧
    invariantOk (mergeOrderWrite "SPEDISCI_ORA".toList) ∧
    invariantOk (mergeTriggerWrite "SPEDISCI_ORA".toList) :=
  have h := tagInvariant_amended "SPEDISCI_ORA".toList (by decide)
  ⟨h.1 (by decide), h.2.1 (by decide) (by decide), h.2.2.1 (by decide),
    h.2.2.2 (by decide)⟩

/-! ### Claim C6 -/

/-- Claim C6 counterexample: the codec round-trip fails on a tag set
whose single element contains a comma, and addTags is not idempotent when
the added tag carries leading whitespace. -/
theorem tagCodec_counterexample :
    parseTags (tagsToString [['a', ',', 'b']]) ≠ [['a', ',', 'b']] ∧
    addTags (addTags [] [[' ', 'a']]) [[' ', 'a']] ≠ addTags [] [[' ', 'a']] := by
  refine ⟨by decide, by decide⟩

/-- Claim C6 (amended): the round-trip `parseTags (tagsToString s) = s`
holds for every duplicate-free tag set whose elements are clean
(nonempty, comma-free, trimmed), and addTags is idempotent whenever the
added tags are clean. -/
theorem tagCodec_roundTrip_amended (l ts : List Str) (t : Str)
    (hc : ∀ w ∈ l, CleanTag w) (hn : l.Nodup) (hts : ∀ w ∈ ts, CleanTag w) :
    parseTags (tagsToString l) = l ∧
    addTags (addTags t ts) ts = addTags t ts := by
  refine ⟨parseTags_tagsToString hc hn, ?_⟩
  have hsub : ∀ y ∈ ts, y ∈ ts.foldl insertTag (parseTags t) :=
    fun y hy => mem_foldl_insertTag.mpr (Or.inr hy)
  calc addTags (addTags t ts) ts
      = tagsToString (ts.foldl insertTag (parseTags (addTags t ts))) := rfl
    _ = tagsToString (ts.foldl insertTag (ts.foldl insertTag (parseTags t))) := by
        rw [parseTags_addTags hts]
    _ = tagsToString (ts.foldl insertTag (parseTags t)) := by
        rw [foldl_insertTag_of_subset hsub]
    _ = addTags t ts := rfl

/-- Witness for the amended claim C6 at concrete clean inputs. -/
theorem tagCodec_roundTrip_witness :
    parseTags (tagsToString [TAG_GIACENZA, TAG_MERGE_OK]) =
      [TAG_GIACENZA, TAG_MERGE_OK] ∧
    addTags (addTags "GIACENZA".toList [TAG_SPEDISCI_ORA]) [TAG_SPEDISCI_ORA] =
      addTags "GIACENZA".toList [TAG_SPEDISCI_ORA] :=
  tagCodec_roundTrip_amended [TAG_GIACENZA, TAG_MERGE_OK] [TAG_SPEDISCI_ORA]
    "GIACENZA".toList (by decide) (by decide) (by decide)

/-! ### Claim C2 -/

/-- Claim C2 counterexample: for an accumulate order whose first read of
fulfillment units is empty, the claimed retry schedule would discover the
unit on the second attempt (the spec-side poller returns it), but
handleOrdersPaid performs no retry at all: it issues zero holds and
returns the success outcome based solely on the first read. -/
theorem pollerRetry_counterexample :
    pollUntilNonEmpty lateReads = ["gid1".toList] ∧
    handleOrdersPaid ⟨some ⟨[], []⟩⟩ ⟨some 1, [⟨some SHIPPING_ACCUMULA⟩]⟩ =
      ("OK GIACENZA".toList, [Effect.updateTags 1 "GIACENZA".toList]) := by
  refine ⟨by decide, by decide⟩

/-- Claim C2 (amended): on the accumulate path the classifier performs a
single read of the fulfillment units and never retries — the holds placed
are exactly the units of that one read — and when that read is empty the
hold step completes with zero holds placed and the success outcome
"OK GIACENZA", not an error. -/
theorem pollerRetry_amended (env : PaidEnv) (p : PaidPayload) (oid : Nat)
    (hid : p.id = some oid) (h0 : oid ≠ 0)
    (hacc : paidShippingTitle p = SHIPPING_ACCUMULA) :
    handleOrdersPaid env p =
      ("OK GIACENZA".toList,
        Effect.updateTags oid (accumulaWrite (joinCS ((liveTags env).map trim))) ::
          ((liveFoNodes env).map (fun n => n.id)).map Effect.holdFO) ∧
    (liveFoNodes env = [] →
      handleOrdersPaid env p =
        ("OK GIACENZA".toList,
          [Effect.updateTags oid
            (accumulaWrite (joinCS ((liveTags env).map trim)))])) := by
  have hmain : handleOrdersPaid env p =
      ("OK GIACENZA".toList,
        Effect.updateTags oid (accumulaWrite (joinCS ((liveTags env).map trim))) ::
          ((liveFoNodes env).map (fun n => n.id)).map Effect.holdFO) := by
    unfold handleOrdersPaid
    rw [hid]
    simp [h0, hacc]
  refine ⟨hmain, fun hempty => ?_⟩
  rw [hmain, hempty]
  simp

/-- Witness for the amended claim C2 at a concrete accumulate order whose
single read sees no fulfillment units. -/
theorem pollerRetry_witness :
    handleOrdersPaid ⟨some ⟨[], []⟩⟩ ⟨some 2, [⟨some SHIPPING_ACCUMULA⟩]⟩ =
      ("OK GIACENZA".toList,
        [Effect.updateTags 2
          (accumulaWrite (joinCS ((liveTags ⟨some ⟨[], []⟩⟩).map trim)))]) :=
  (pollerRetry_amended ⟨some ⟨[], []⟩⟩ ⟨some 2, [⟨some SHIPPING_ACCUMULA⟩]⟩ 2
    rfl (by decide) (by decide)).2 rfl

/-! ### Claim C3 -/

/-- Claim C3 counterexample: for a trigger order that has no customer id
and a non-express shipping method, webhook.js answers "SKIP no customer"
— the missing-customer check (4) fires before the shipping/EXPRESS_NOW
check (3) — whereas under the claimed check order the outcome would be
"OK ignored (not SDA)". -/
theorem precheckOrder_counterexample :
    (handleFulfillmentCreate
        ⟨some ⟨none, none, some [], [⟨some "other".toList⟩]⟩, [],
          fun _ => [], fun _ => []⟩
        ⟨some 5, some 1, some "T1".toList, [], none, none, none, []⟩).1 =
      "SKIP no customer".toList ∧
    claimedPrecheckOutcome
        ⟨some ⟨none, none, some [], [⟨some "other".toList⟩]⟩, [],
          fun _ => [], fun _ => []⟩
        ⟨some 5, some 1, some "T1".toList, [], none, none, none, []⟩ =
      some "OK ignored (not SDA)".toList ∧
    "SKIP no customer".toList ≠ "OK ignored (not SDA)".toList := by
  refine ⟨by decide, by decide, by decide⟩

/-- Claim C3 (amended): handleFulfillmentCreate checks its five
preconditions in the order (1) no order id, (2) no tracking number,
(4) no customer id, (3) shipping not express and EXPRESS_NOW absent,
(5) MERGE_OK already present — the customer check evaluated before the
shipping check — each exiting with its distinct outcome: whenever the
cascade fires, the handler returns exactly that outcome. -/
theorem precheckOrder_amended (env : MergeEnv) (p : FulfillPayload) (s : Str)
    (h : amendedPrecheckOutcome env p = some s) :
    (handleFulfillmentCreate env p).1 = s := by
  cases hid : p.order_id with
  | none =>
    simp only [amendedPrecheckOutcome, hid] at h
    simp only [handleFulfillmentCreate, hid]
    exact Option.some.inj h
  | some oid =>
    simp only [amendedPrecheckOutcome, hid] at h
    simp only [handleFulfillmentCreate, hid]
    by_cases h0 : oid = 0
    · rw [if_pos h0] at h ⊢
      exact Option.some.inj h
    · rw [if_neg h0] at h ⊢
      by_cases htr : ¬ truthy (trackingNumberOf p)
      · rw [if_pos htr] at h ⊢
        exact Option.some.inj h
      · rw [if_neg htr] at h ⊢
        by_cases hcu : ¬ truthyNat (env.triggerOrder.bind (·.customerId))
        · rw [if_pos hcu] at h ⊢
          exact Option.some.inj h
        · rw [if_neg hcu] at h ⊢
          by_cases hsda : ¬(triggerShippingTitleOf env = SHIPPING_SDA ∨
            hasTag (triggerTagsOf env) TAG_SPEDISCI_ORA = true)
          · rw [if_pos hsda] at h ⊢
            exact Option.some.inj h
          · rw [if_neg hsda] at h ⊢
            by_cases hmk : hasTag (triggerTagsOf env) TAG_MERGE_OK = true
            · rw [if_pos hmk] at h ⊢
              exact Option.some.inj h
            · rw [if_neg hmk] at h
              exact absurd h (by simp)

/-- Witness for the amended claim C3: a concrete payload whose trigger
order lacks a customer id takes the "SKIP no customer" exit. -/
theorem precheckOrder_witness :
    (handleFulfillmentCreate
        ⟨some ⟨none, none, some [], [⟨some "other".toList⟩]⟩, [],
          fun _ => [], fun _ => []⟩
        ⟨some 6, some 2, some "T2".toList, [], none, none, none, []⟩).1 =
      "SKIP no customer".toList :=
  precheckOrder_amended
    ⟨some ⟨none, none, some [], [⟨some "other".toList⟩]⟩, [],
      fun _ => [], fun _ => []⟩
    ⟨some 6, some 2, some "T2".toList, [], none, none, none, []⟩
    "SKIP no customer".toList (by decide)

/-! ### Main-branch helpers for the merge orchestrator -/

lemma precheck_none_elim {env : MergeEnv} {p : FulfillPayload} {oid : Nat}
    (hid : p.order_id = some oid) (h : amendedPrecheckOutcome env p = none) :
    oid ≠ 0 ∧ truthy (trackingNumberOf p) = true ∧
    truthyNat (env.triggerOrder.bind (·.customerId)) = true ∧
    (triggerShippingTitleOf env = SHIPPING_SDA ∨
      hasTag (triggerTagsOf env) TAG_SPEDISCI_ORA = true) ∧
    hasTag (triggerTagsOf env) TAG_MERGE_OK = false := by
  simp only [amendedPrecheckOutcome, hid] at h
  by_cases h0 : oid = 0
  · rw [if_pos h0] at h
    exact absurd h (by simp)
  · rw [if_neg h0] at h
    by_cases htr : ¬ truthy (trackingNumberOf p)
    · rw [if_pos htr] at h
      exact absurd h (by simp)
    · rw [if_neg htr] at h
      by_cases hcu : ¬ truthyNat (env.triggerOrder.bind (·.customerId))
      · rw [if_pos hcu] at h
        exact absurd h (by simp)
      · rw [if_neg hcu] at h
        by_cases hsda : ¬(triggerShippingTitleOf env = SHIPPING_SDA ∨
          hasTag (triggerTagsOf env) TAG_SPEDISCI_ORA = true)
        · rw [if_pos hsda] at h
          exact absurd h (by simp)
        · rw [if_neg hsda] at h
          by_cases hmk : hasTag (triggerTagsOf env) TAG_MERGE_OK = true
          · rw [if_pos hmk] at h
            exact absurd h (by simp)
          · exact ⟨h0, not_not.mp htr, not_not.mp hcu, not_not.mp hsda,
              by simpa using hmk⟩

lemma handleFulfillmentCreate_eq_mergePhase {env : MergeEnv}
    {p : FulfillPayload} {oid : Nat} (hid : p.order_id = some oid)
    (h : amendedPrecheckOutcome env p = none) :
    handleFulfillmentCreate env p = mergePhase env p oid := by
  obtain ⟨h0, htr, hcu, hsda, hmk⟩ := precheck_none_elim hid h
  simp only [handleFulfillmentCreate, hid]
  rw [if_neg h0, if_neg (by simp [htr]), if_neg (by simp [hcu]),
    if_neg (by simp [hsda]), if_neg (by simp [hmk])]

lemma filterMap_some_comp {α β : Type} (f : α → β) (l : List α) :
    l.filterMap (fun x => some (f x)) = l.map f := by
  induction l with
  | nil => rfl
  | cons x xs ih => simp [List.filterMap_cons, ih]

lemma filterMap_const_none {α β : Type} (l : List α) :
    l.filterMap (fun _ => (none : Option β)) = [] := by
  induction l with
  | nil => rfl
  | cons x xs ih => simp [List.filterMap_cons, ih]

lemma releaseTargets_append (a b : List Effect) :
    releaseTargets (a ++ b) = releaseTargets a ++ releaseTargets b := by
  unfold releaseTargets
  exact List.filterMap_append a b _

lemma releaseTargets_flatMap {α : Type} (l : List α) (g : α → List Effect) :
    releaseTargets (l.flatMap g) = l.flatMap (fun a => releaseTargets (g a)) := by
  unfold releaseTargets
  exact List.filterMap_flatMap l g _

lemma createdFoIds_append (a b : List Effect) :
    createdFoIds (a ++ b) = createdFoIds a ++ createdFoIds b := by
  unfold createdFoIds
  exact List.filterMap_append a b _

lemma createdFoIds_flatMap {α : Type} (l : List α) (g : α → List Effect) :
    createdFoIds (l.flatMap g) = l.flatMap (fun a => createdFoIds (g a)) := by
  unfold createdFoIds
  exact List.filterMap_flatMap l g _

lemma releaseTargets_mergeChunk (env : MergeEnv) (p : FulfillPayload)
    (oid : Nat) (o : OrderSummary) :
    releaseTargets (mergeChunk env p oid o) =
      (env.foGidsOf o.id).map (fun n => n.id) := by
  unfold releaseTargets mergeChunk
  simp [List.filterMap_map, Function.comp_def, mergeCreate,
    filterMap_some_comp, filterMap_const_none]

lemma createdFoIds_mergeChunk (env : MergeEnv) (p : FulfillPayload)
    (oid : Nat) (o : OrderSummary) :
    createdFoIds (mergeChunk env p oid o) =
      (openFos (env.fosOf o.id)).map (fun fo => fo.id) := by
  unfold createdFoIds mergeChunk
  simp [List.filterMap_map, Function.comp_def, mergeCreate,
    filterMap_some_comp, filterMap_const_none]

/-! ### Claim C4 -/

/-- Claim C4 counterexample: a mergeable order whose only fulfillment
unit is reported with status CLOSED by the GraphQL read still gets a
release-hold call for that unit — the orchestrator applies no status
filter to release-hold, only to fulfillment creation. -/
theorem releaseHold_counterexample :
    (∀ n ∈ ([⟨"gidX".toList, "CLOSED".toList⟩] : List FoNode),
      n.status = "CLOSED".toList) ∧
    Effect.releaseHold "gidX".toList ∈
      (handleFulfillmentCreate
        ⟨some ⟨none, some 9, some "SPEDISCI_ORA".toList, []⟩,
          [⟨2, none, some "GIACENZA".toList, none⟩],
          fun _ => [⟨"gidX".toList, "CLOSED".toList⟩], fun _ => []⟩
        ⟨some 5, some 1, some "T1".toList, [], none, none, none, []⟩).2 := by
  refine ⟨by decide, by decide⟩

/-- Claim C4 (amended): during the merge the orchestrator releases the
hold on every fulfillment unit the GraphQL read returns for each
mergeable order, with no status filter at all; the non-closed,
non-cancelled filter applies only to fulfillment creation. -/
theorem releaseHold_amended (env : MergeEnv) (p : FulfillPayload) (oid : Nat)
    (hid : p.order_id = some oid)
    (h : amendedPrecheckOutcome env p = none) :
    releaseTargets (handleFulfillmentCreate env p).2 =
      (giacenzeOf env.customerOrders).flatMap
        (fun o => (env.foGidsOf o.id).map (fun n => n.id)) ∧
    createdFoIds (handleFulfillmentCreate env p).2 =
      (giacenzeOf env.customerOrders).flatMap
        (fun o => (openFos (env.fosOf o.id)).map (fun fo => fo.id)) := by
  rw [handleFulfillmentCreate_eq_mergePhase hid h]
  unfold mergePhase
  by_cases hemp : (giacenzeOf env.customerOrders).isEmpty
  · rw [if_pos hemp]
    rw [List.isEmpty_iff.mp hemp]
    exact ⟨rfl, rfl⟩
  · rw [if_neg hemp]
    constructor
    · show releaseTargets (_ ++ [_]) = _
      rw [releaseTargets_append, releaseTargets_flatMap]
      simp only [releaseTargets_mergeChunk]
      simp [releaseTargets]
    · show createdFoIds (_ ++ [_]) = _
      rw [createdFoIds_append, createdFoIds_flatMap]
      simp only [createdFoIds_mergeChunk]
      simp [createdFoIds]

/-- Witness for the amended claim C4 at a concrete merge with one
mergeable order carrying one closed unit and one open unit: both units
get their holds released, only the open one gets a fulfillment. -/
theorem releaseHold_witness :
    releaseTargets
        (handleFulfillmentCreate
          ⟨some ⟨none, some 9, some "SPEDISCI_ORA".toList, []⟩,
            [⟨3, none, some "GIACENZA".toList, none⟩],
            fun _ => [⟨"gidA".toList, "CLOSED".toList⟩,
              ⟨"gidB".toList, "OPEN".toList⟩],
            fun _ => [⟨41, "closed".toList⟩, ⟨42, "open".toList⟩]⟩
          ⟨some 7, some 4, some "T4".toList, [], none, none, none, []⟩).2 =
      ["gidA".toList, "gidB".toList] ∧
    createdFoIds
        (handleFulfillmentCreate
          ⟨some ⟨none, some 9, some "SPEDISCI_ORA".toList, []⟩,
            [⟨3, none, some "GIACENZA".toList, none⟩],
            fun _ => [⟨"gidA".toList, "CLOSED".toList⟩,
              ⟨"gidB".toList, "OPEN".toList⟩],
            fun _ => [⟨41, "closed".toList⟩, ⟨42, "open".toList⟩]⟩
          ⟨some 7, some 4, some "T4".toList, [], none, none, none, []⟩).2 =
      [42] := by
  have h := releaseHold_amended
    ⟨some ⟨none, some 9, some "SPEDISCI_ORA".toList, []⟩,
      [⟨3, none, some "GIACENZA".toList, none⟩],
      fun _ => [⟨"gidA".toList, "CLOSED".toList⟩, ⟨"gidB".toList, "OPEN".toList⟩],
      fun _ => [⟨41, "closed".toList⟩, ⟨42, "open".toList⟩]⟩
    ⟨some 7, some 4, some "T4".toList, [], none, none, none, []⟩ 4
    rfl (by decide)
  refine ⟨?_, ?_⟩
  · rw [h.1]
    decide
  · rw [h.2]
    decide

/-! ### Claim C7 -/

lemma mergeTriggerWrite_tags (t : Str) :
    hasTag (mergeTriggerWrite t) TAG_MERGE_OK = true ∧
    hasTag (mergeTriggerWrite t) TAG_MERGE_IN_CORSO = false := by
  constructor
  · rw [mergeTriggerWrite, hasTag_removeTags_eq, hasTag_addTags_eq (by decide)]
    have e1 : decide (TAG_MERGE_OK ∈ [TAG_MERGE_OK, TAG_MERGE_DONE_FROM]) = true := by
      decide
    have e2 : decide (TAG_MERGE_OK ∈ [TAG_MERGE_IN_CORSO]) = false := by decide
    rw [e1, e2]
    simp
  · rw [mergeTriggerWrite, hasTag_removeTags_eq]
    have e3 : decide (TAG_MERGE_IN_CORSO ∈ [TAG_MERGE_IN_CORSO]) = true := by decide
    rw [e3]
    simp

/-- Claim C7: when all merge preconditions pass and the mergeable set is
empty, the orchestrator still rewrites the trigger order's tags with the
closing write — whose result always carries MERGE_OK and never
MERGE_IN_CORSO — and returns the success outcome "OK no giacenze". -/
theorem emptyMergeSet_closes (env : MergeEnv) (p : FulfillPayload) (oid : Nat)
    (hid : p.order_id = some oid)
    (h : amendedPrecheckOutcome env p = none)
    (hg : giacenzeOf env.customerOrders = []) :
    handleFulfillmentCreate env p =
      ("OK no giacenze".toList,
        [Effect.updateTags oid (mergeTriggerWrite (triggerTagsOf env))]) ∧
    hasTag (mergeTriggerWrite (triggerTagsOf env)) TAG_MERGE_OK = true ∧
    hasTag (mergeTriggerWrite (triggerTagsOf env)) TAG_MERGE_IN_CORSO = false := by
  refine ⟨?_, mergeTriggerWrite_tags _⟩
  rw [handleFulfillmentCreate_eq_mergePhase hid h]
  unfold mergePhase
  rw [if_pos (by rw [List.isEmpty_iff]; exact hg)]

/-- Witness for claim C7: a concrete express order still tagged
MERGE_IN_CORSO whose customer has no mergeable giacenza orders. -/
theorem emptyMergeSet_witness :
    handleFulfillmentCreate
        ⟨some ⟨none, some 9, some "SPEDISCI_ORA, MERGE_IN_CORSO".toList, []⟩,
          [], fun _ => [], fun _ => []⟩
        ⟨some 8, some 3, some "T3".toList, [], none, none, none, []⟩ =
      ("OK no giacenze".toList,
        [Effect.updateTags 3
          (mergeTriggerWrite (triggerTagsOf
            ⟨some ⟨none, some 9, some "SPEDISCI_ORA, MERGE_IN_CORSO".toList, []⟩,
              [], fun _ => [], fun _ => []⟩))]) :=
  (emptyMergeSet_closes _ _ 3 rfl (by decide) (by decide)).1

/-! ### Claim C9 -/

/-- Claim C9: the mergeable-set filter does not exclude the trigger
order itself. With the trigger order listed as GIACENZA-tagged and
unfulfilled, it is processed as its own merge target (the loop's write
removes GIACENZA), but the closing write for the trigger is computed from
the tag string fetched at the start of the invocation, so it overwrites
the loop's write and leaves GIACENZA present alongside MERGE_OK. -/
theorem triggerSelfMerge_overwrite :
    handleFulfillmentCreate
        ⟨some ⟨some "#B".toList, some 9,
            some "GIACENZA, SPEDISCI_ORA, MERGE_IN_CORSO".toList, []⟩,
          [⟨1, some "#B".toList,
            some "GIACENZA, SPEDISCI_ORA, MERGE_IN_CORSO".toList, none⟩],
          fun _ => [], fun _ => []⟩
        ⟨some 11, some 1, some "T9".toList, [], none, none, none, []⟩ =
      ("OK merged".toList,
        [Effect.updateTags 1
          (mergeOrderWrite "GIACENZA, SPEDISCI_ORA, MERGE_IN_CORSO".toList),
         Effect.updateTags 1
          (mergeTriggerWrite "GIACENZA, SPEDISCI_ORA, MERGE_IN_CORSO".toList)]) ∧
    hasTag (mergeOrderWrite "GIACENZA, SPEDISCI_ORA, MERGE_IN_CORSO".toList)
      TAG_GIACENZA = false ∧
    hasTag (mergeTriggerWrite "GIACENZA, SPEDISCI_ORA, MERGE_IN_CORSO".toList)
      TAG_GIACENZA = true ∧
    hasTag (mergeTriggerWrite "GIACENZA, SPEDISCI_ORA, MERGE_IN_CORSO".toList)
      TAG_MERGE_OK = true := by
  refine ⟨by decide, by decide, by decide, by decide⟩

/-! ### Claim C10 -/

/-- Claim C10: for every fulfillments/create payload carrying a tracking
number but neither tracking_company nor tracking_company_name, every
fulfillment created during the resulting merge carries the tracking
company "SDA". -/
theorem trackingCompany_default (env : MergeEnv) (p : FulfillPayload)
    (hc : p.tracking_company = none) (hcn : p.tracking_company_name = none) :
    ∀ foId number company url message,
      Effect.createFulfillment foId number company url message ∈
        (handleFulfillmentCreate env p).2 →
      company = "SDA".toList := by
  intro foId number company url message hmem
  have hcompany : company =
      orStr (jsOr (jsOr p.tracking_company p.tracking_company_name)
        (some "SDA".toList)) "SDA".toList := by
    cases hid : p.order_id with
    | none =>
      simp only [handleFulfillmentCreate, hid] at hmem
      simp at hmem
    | some oid =>
      simp only [handleFulfillmentCreate, hid] at hmem
      split_ifs at hmem with h1 h2 h3 h4 h5
      all_goals try exact absurd hmem (List.not_mem_nil _)
      · unfold mergePhase at hmem
        split_ifs at hmem with h6
        · simp at hmem
        · rw [List.mem_append] at hmem
          rcases hmem with hmem | hmem
          · rw [List.mem_flatMap] at hmem
            obtain ⟨o, _, hmem⟩ := hmem
            unfold mergeChunk at hmem
            rw [List.mem_append, List.mem_append] at hmem
            rcases hmem with (hmem | hmem) | hmem
            · simp [List.mem_map] at hmem
            · rw [List.mem_map] at hmem
              obtain ⟨fo, _, hfo⟩ := hmem
              unfold mergeCreate at hfo
              injection hfo with hi1 hi2 hi3 hi4 hi5
              exact hi3.symm
            · simp at hmem
          · simp at hmem
  rw [hcompany, hc, hcn]
  decide

/-- Witness for claim C10: a concrete merge whose payload has no
tracking-company fields produces a fulfillment carrying company "SDA". -/
theorem trackingCompany_witness :
    Effect.createFulfillment 50 "TN".toList "SDA".toList none
        "Accorpato a spedizione 4".toList ∈
      (handleFulfillmentCreate
        ⟨some ⟨none, some 9, some "SPEDISCI_ORA".toList, []⟩,
          [⟨3, none, some "GIACENZA".toList, none⟩],
          fun _ => [], fun _ => [⟨50, "open".toList⟩]⟩
        ⟨some 1, some 4, some "TN".toList, [], none, none, none, []⟩).2 ∧
    "SDA".toList = "SDA".toList :=
  ⟨by decide,
    trackingCompany_default
      ⟨some ⟨none, some 9, some "SPEDISCI_ORA".toList, []⟩,
        [⟨3, none, some "GIACENZA".toList, none⟩],
        fun _ => [], fun _ => [⟨50, "open".toList⟩]⟩
      ⟨some 1, some 4, some "TN".toList, [], none, none, none, []⟩
      rfl rfl 50 "TN".toList "SDA".toList none
      "Accorpato a spedizione 4".toList (by decide)⟩

/-! ### Claim C5 -/

lemma mem_map_gate {tm : Bool} {w : GatedWrite} {ops : List Effect}
    (h : w ∈ ops.map (gate tm)) :
    w.result = if tm then WriteResult.skipped else WriteResult.performed := by
  rw [List.mem_map] at h
  obtain ⟨op, _, rfl⟩ := h
  rfl

lemma TM_paid_outcome_ops (tm tm' : Bool) (env : PaidEnv) (pp : PaidPayload) :
    (TestMode.handleOrdersPaid tm env pp).1 =
      (TestMode.handleOrdersPaid tm' env pp).1 ∧
    (TestMode.handleOrdersPaid tm env pp).2.map (fun w => w.op) =
      (TestMode.handleOrdersPaid tm' env pp).2.map (fun w => w.op) := by
  cases hid : pp.id with
  | none => simp [TestMode.handleOrdersPaid, hid]
  | some oid =>
    simp only [TestMode.handleOrdersPaid, hid]
    split_ifs <;> simp [gate, List.map_map, Function.comp_def]

lemma TM_paid_trace_gated (tm : Bool) (env : PaidEnv) (pp : PaidPayload) :
    (TestMode.handleOrdersPaid tm env pp).2 =
      ((TestMode.handleOrdersPaid tm env pp).2.map (fun w => w.op)).map (gate tm) := by
  cases hid : pp.id with
  | none => simp [TestMode.handleOrdersPaid, hid]
  | some oid =>
    simp only [TestMode.handleOrdersPaid, hid]
    split_ifs <;> simp [gate, List.map_map, Function.comp_def]

lemma TM_merge_outcome_ops (tm tm' : Bool) (env : MergeEnv) (fp : FulfillPayload) :
    (TestMode.handleFulfillmentCreate tm env fp).1 =
      (TestMode.handleFulfillmentCreate tm' env fp).1 ∧
    (TestMode.handleFulfillmentCreate tm env fp).2.map (fun w => w.op) =
      (TestMode.handleFulfillmentCreate tm' env fp).2.map (fun w => w.op) := by
  cases hid : fp.order_id with
  | none => simp [TestMode.handleFulfillmentCreate, hid]
  | some oid =>
    simp only [TestMode.handleFulfillmentCreate, hid]
    split_ifs <;>
      simp [gate, List.map_map, List.map_append, List.map_flatMap,
        Function.comp_def]

lemma TM_merge_trace_gated (tm : Bool) (env : MergeEnv) (fp : FulfillPayload) :
    (TestMode.handleFulfillmentCreate tm env fp).2 =
      ((TestMode.handleFulfillmentCreate tm env fp).2.map
        (fun w => w.op)).map (gate tm) := by
  cases hid : fp.order_id with
  | none => simp [TestMode.handleFulfillmentCreate, hid]
  | some oid =>
    simp only [TestMode.handleFulfillmentCreate, hid]
    split_ifs <;>
      simp [gate, List.map_map, List.map_append, List.map_flatMap,
        Function.comp_def]

/-- Claim C5: with TEST_MODE enabled every external write of the part_000
handlers reports a skipped marker and performs nothing, while for the
same inputs and read results the handlers produce the identical outcome
and the identical sequence of requested write operations as a
production-mode run (in which every write is performed); reads are not
gated. -/
theorem dryRun_equivalence (env : PaidEnv) (menv : MergeEnv)
    (pp : PaidPayload) (fp : FulfillPayload) :
    ((TestMode.handleOrdersPaid true env pp).1 =
      (TestMode.handleOrdersPaid false env pp).1) ∧
    ((TestMode.handleOrdersPaid true env pp).2.map (fun w => w.op) =
      (TestMode.handleOrdersPaid false env pp).2.map (fun w => w.op)) ∧
    (∀ w ∈ (TestMode.handleOrdersPaid true env pp).2,
      w.result = WriteResult.skipped) ∧
    (∀ w ∈ (TestMode.handleOrdersPaid false env pp).2,
      w.result = WriteResult.performed) ∧
    ((TestMode.handleFulfillmentCreate true menv fp).1 =
      (TestMode.handleFulfillmentCreate false menv fp).1) ∧
    ((TestMode.handleFulfillmentCreate true menv fp).2.map (fun w => w.op) =
      (TestMode.handleFulfillmentCreate false menv fp).2.map (fun w => w.op)) ∧
    (∀ w ∈ (TestMode.handleFulfillmentCreate true menv fp).2,
      w.result = WriteResult.skipped) ∧
    (∀ w ∈ (TestMode.handleFulfillmentCreate false menv fp).2,
      w.result = WriteResult.performed) := by
  refine ⟨(TM_paid_outcome_ops true false env pp).1,
    (TM_paid_outcome_ops true false env pp).2, ?_, ?_,
    (TM_merge_outcome_ops true false menv fp).1,
    (TM_merge_outcome_ops true false menv fp).2, ?_, ?_⟩
  · intro w hw
    rw [TM_paid_trace_gated true env pp] at hw
    exact mem_map_gate hw
  · intro w hw
    rw [TM_paid_trace_gated false env pp] at hw
    exact mem_map_gate hw
  · intro w hw
    rw [TM_merge_trace_gated true menv fp] at hw
    exact mem_map_gate hw
  · intro w hw
    rw [TM_merge_trace_gated false menv fp] at hw
    exact mem_map_gate hw

/-- Witness for claim C5 at a concrete accumulate order, discharging the
per-write membership hypotheses at a concrete gated hold. -/
theorem dryRun_witness :
    ((TestMode.handleOrdersPaid true ⟨some ⟨[], [⟨"g1".toList, "OPEN".toList⟩]⟩⟩
        ⟨some 1, [⟨some SHIPPING_ACCUMULA⟩]⟩).1 =
      (TestMode.handleOrdersPaid false ⟨some ⟨[], [⟨"g1".toList, "OPEN".toList⟩]⟩⟩
        ⟨some 1, [⟨some SHIPPING_ACCUMULA⟩]⟩).1) ∧
    (gate true (Effect.holdFO "g1".toList)).result = WriteResult.skipped ∧
    (gate false (Effect.holdFO "g1".toList)).result = WriteResult.performed := by
  have h := dryRun_equivalence ⟨some ⟨[], [⟨"g1".toList, "OPEN".toList⟩]⟩⟩
    ⟨none, [], fun _ => [], fun _ => []⟩
    ⟨some 1, [⟨some SHIPPING_ACCUMULA⟩]⟩
    ⟨none, none, none, [], none, none, none, []⟩
  refine ⟨h.1, ?_, ?_⟩
  · exact h.2.2.1 (gate true (Effect.holdFO "g1".toList)) (by decide)
  · exact h.2.2.2.1 (gate false (Effect.holdFO "g1".toList)) (by decide)

/-! ### Claim C8 -/

/-- Claim C8: with the webhook secret configured, the handler's HTTP
status is exactly the claimed contract — 405 for non-POST, 401 for a
missing or mismatched HMAC-SHA256(base64) header, 400 for invalid JSON,
and 200 for every routed or ignored topic, including when the per-topic
processing throws an internally-caught error. -/
theorem httpContract (env : HandlerEnv) (req : Request) (secret : Str)
    (hs : env.secret = some secret) :
    (webhookHandler env req).1 = claimedStatus env secret req := by
  unfold webhookHandler claimedStatus
  by_cases hm : req.method ≠ "POST".toList
  · rw [if_pos hm, if_pos hm]
  · rw [if_neg hm, if_neg hm]
    cases hh : req.hmacHeader with
    | none => rfl
    | some h =>
      rw [hs]
      dsimp only
      by_cases hv : h ≠ env.hmacOf secret req.rawBody
      · rw [if_pos hv, if_pos hv]
      · rw [if_neg hv, if_neg hv]
        by_cases hj : ¬ env.parseOk req.rawBody
        · rw [if_pos hj, if_pos hj]
        · rw [if_neg hj, if_neg hj]
          cases env.dispatch req.topic req.rawBody <;> rfl

/-- Witness for claim C8 at a concrete configured environment and a
valid POST request, which receives status 200. -/
theorem httpContract_witness :
    (webhookHandler
        ⟨some "k".toList, fun _ _ => "h".toList, fun _ => true,
          fun _ _ => Except.ok "OK".toList⟩
        ⟨"POST".toList, "body".toList, some "h".toList, none⟩).1 =
      claimedStatus
        ⟨some "k".toList, fun _ _ => "h".toList, fun _ => true,
          fun _ _ => Except.ok "OK".toList⟩ "k".toList
        ⟨"POST".toList, "body".toList, some "h".toList, none⟩ ∧
    claimedStatus
        ⟨some "k".toList, fun _ _ => "h".toList, fun _ => true,
          fun _ _ => Except.ok "OK".toList⟩ "k".toList
        ⟨"POST".toList, "body".toList, some "h".toList, none⟩ = 200 :=
  ⟨httpContract _ _ "k".toList rfl, rfl⟩
